import Mathlib

set_option maxRecDepth 1000000
set_option maxHeartbeats 4000000

/-!
A verification development for the Borovkov Protocol reference implementation
(`borovkov_protocol.py`): deterministic symmetric-key message authentication
for software agents.  The Python source is shallowly embedded here: byte
strings are `List Nat` (each element a byte value), HMAC-SHA256 is implemented
concretely over `Nat` arithmetic so that signatures evaluate inside the
kernel, the canonical JSON encoding mirrors Python's
`json.dumps(..., sort_keys=True)` with its default separators, and fallible
operations (constructor seed validation, `hmac.compare_digest`'s rejection of
non-ASCII `str` arguments) return `Except`.
-/

namespace Borovkov

/-! ## UTF-8 encoding of strings (mirrors Python's `str.encode("utf-8")`) -/

/-- UTF-8 encoding of a single scalar value, as byte values. -/
def utf8EncodeChar (c : Char) : List Nat :=
  let n := c.toNat
  if n < 0x80 then [n]
  else if n < 0x800 then
    [0xC0 ||| (n >>> 6), 0x80 ||| (n &&& 0x3F)]
  else if n < 0x10000 then
    [0xE0 ||| (n >>> 12), 0x80 ||| ((n >>> 6) &&& 0x3F), 0x80 ||| (n &&& 0x3F)]
  else
    [0xF0 ||| (n >>> 18), 0x80 ||| ((n >>> 12) &&& 0x3F),
     0x80 ||| ((n >>> 6) &&& 0x3F), 0x80 ||| (n &&& 0x3F)]

/-- UTF-8 bytes of a string, as Python's `s.encode("utf-8")`. -/
def utf8Bytes (s : String) : List Nat :=
  (s.data.map utf8EncodeChar).flatten

/-! ## SHA-256 over byte lists

32-bit words are `Nat` values kept below `2^32` by reducing modulo
`4294967296` after every addition; the bitwise operations cannot grow their
operands. -/

/-- Addition modulo `2^32`. -/
def add32 (a b : Nat) : Nat := (a + b) % 4294967296

/-- Right rotation of a 32-bit word. -/
def rotr (n x : Nat) : Nat := ((x >>> n) ||| (x <<< (32 - n))) % 4294967296

def bigSigma0 (x : Nat) : Nat := (rotr 2 x) ^^^ (rotr 13 x) ^^^ (rotr 22 x)

def bigSigma1 (x : Nat) : Nat := (rotr 6 x) ^^^ (rotr 11 x) ^^^ (rotr 25 x)

def smallSigma0 (x : Nat) : Nat := (rotr 7 x) ^^^ (rotr 18 x) ^^^ (x >>> 3)

def smallSigma1 (x : Nat) : Nat := (rotr 17 x) ^^^ (rotr 19 x) ^^^ (x >>> 10)

/-- SHA-256 choice function; `¬x` within 32 bits is `x ^^^ 0xFFFFFFFF`. -/
def ch (x y z : Nat) : Nat := (x &&& y) ^^^ ((x ^^^ 0xFFFFFFFF) &&& z)

def maj (x y z : Nat) : Nat := (x &&& y) ^^^ (x &&& z) ^^^ (y &&& z)

/-- The eight 32-bit words of SHA-256 working state. -/
structure Hash8 where
  a : Nat
  b : Nat
  c : Nat
  d : Nat
  e : Nat
  f : Nat
  g : Nat
  h : Nat
deriving DecidableEq

/-- SHA-256 initial hash value (FIPS 180-4 `H0..H7`, written in decimal). -/
def initH : Hash8 :=
  ⟨1779033703, 3144134277, 1013904242, 2773480762,
   1359893119, 2600822924, 528734635, 1541459225⟩

/-- SHA-256 round constants (FIPS 180-4 `K0..K63`, written in decimal). -/
def K : List Nat :=
  [1116352408, 1899447441, 3049323471, 3921009573, 961987163,
   1508970993, 2453635748, 2870763221, 3624381080, 310598401,
   607225278, 1426881987, 1925078388, 2162078206, 2614888103,
   3248222580, 3835390401, 4022224774, 264347078, 604807628,
   770255983, 1249150122, 1555081692, 1996064986, 2554220882,
   2821834349, 2952996808, 3210313671, 3336571891, 3584528711,
   113926993, 338241895, 666307205, 773529912, 1294757372,
   1396182291, 1695183700, 1986661051, 2177026350, 2456956037,
   2730485921, 2820302411, 3259730800, 3345764771, 3516065817,
   3600352804, 4094571909, 275423344, 430227734, 506948616,
   659060556, 883997877, 958139571, 1322822218, 1537002063,
   1747873779, 1955562222, 2024104815, 2227730452, 2361852424,
   2428436474, 2756734187, 3204031479, 3329325298]

/-- Append the next word of the message schedule. -/
def extendW (w : List Nat) : List Nat :=
  let n := w.length
  w ++ [add32 (smallSigma1 (w.getD (n - 2) 0))
          (add32 (w.getD (n - 7) 0)
            (add32 (smallSigma0 (w.getD (n - 15) 0)) (w.getD (n - 16) 0)))]

/-- Extend a 16-word block to the full 64-word message schedule. -/
def schedule (w16 : List Nat) : List Nat :=
  (List.range 48).foldl (fun w _ => extendW w) w16

/-- One SHA-256 compression round; `kw` is the pair of round constant and
schedule word. -/
def sha256Round (s : Hash8) (kw : Nat × Nat) : Hash8 :=
  let t1 := add32 s.h (add32 (bigSigma1 s.e) (add32 (ch s.e s.f s.g) (add32 kw.1 kw.2)))
  let t2 := add32 (bigSigma0 s.a) (maj s.a s.b s.c)
  ⟨add32 t1 t2, s.a, s.b, s.c, add32 s.d t1, s.e, s.f, s.g⟩

/-- Compress one 16-word block into the running hash value. -/
def compress (s : Hash8) (block : List Nat) : Hash8 :=
  let t := (K.zip (schedule block)).foldl sha256Round s
  ⟨add32 s.a t.a, add32 s.b t.b, add32 s.c t.c, add32 s.d t.d,
   add32 s.e t.e, add32 s.f t.f, add32 s.g t.g, add32 s.h t.h⟩

/-- SHA-256 padding for a message of `len` bytes: `0x80`, zeros to 56 mod 64,
then the bit length in 8 big-endian bytes. -/
def sha256Pad (len : Nat) : List Nat :=
  let bits := len * 8
  0x80 :: List.replicate ((119 - len % 64) % 64) 0 ++
    [(bits >>> 56) &&& 0xFF, (bits >>> 48) &&& 0xFF, (bits >>> 40) &&& 0xFF,
     (bits >>> 32) &&& 0xFF, (bits >>> 24) &&& 0xFF, (bits >>> 16) &&& 0xFF,
     (bits >>> 8) &&& 0xFF, bits &&& 0xFF]

/-- Group bytes into big-endian 32-bit words (the byte list has length a
multiple of four whenever it is a padded message). -/
def bytesToWords : List Nat → List Nat
  | b0 :: b1 :: b2 :: b3 :: rest =>
      ((b0 <<< 24) ||| (b1 <<< 16) ||| (b2 <<< 8) ||| b3) :: bytesToWords rest
  | _ => []

/-- Split a word list into 16-word blocks; `fuel` is structural and any value
at least the list length is enough. -/
def chunk16 : Nat → List Nat → List (List Nat)
  | _, [] => []
  | 0, _ => []
  | fuel + 1, l => l.take 16 :: chunk16 fuel (l.drop 16)

/-- SHA-256 of a byte list, as the eight words of the final hash value. -/
def sha256 (msg : List Nat) : Hash8 :=
  let padded := msg ++ sha256Pad msg.length
  let words := bytesToWords padded
  (chunk16 words.length words).foldl compress initH

/-- Big-endian bytes of one 32-bit word. -/
def wordBytes (w : Nat) : List Nat :=
  [(w >>> 24) &&& 0xFF, (w >>> 16) &&& 0xFF, (w >>> 8) &&& 0xFF, w &&& 0xFF]

/-- The 32 digest bytes of a final hash value. -/
def hashBytes (s : Hash8) : List Nat :=
  wordBytes s.a ++ wordBytes s.b ++ wordBytes s.c ++ wordBytes s.d ++
  wordBytes s.e ++ wordBytes s.f ++ wordBytes s.g ++ wordBytes s.h

/-- Lowercase hexadecimal digit characters. -/
def hexDigit : Nat → Char
  | 0 => '0' | 1 => '1' | 2 => '2' | 3 => '3' | 4 => '4'
  | 5 => '5' | 6 => '6' | 7 => '7' | 8 => '8' | 9 => '9'
  | 10 => 'a' | 11 => 'b' | 12 => 'c' | 13 => 'd' | 14 => 'e' | 15 => 'f'
  | _ => '0'

/-- Two lowercase hex characters of a byte (`b / 16 % 16` is the high nibble
for any byte value). -/
def toHexByte (b : Nat) : List Char :=
  [hexDigit (b / 16 % 16), hexDigit (b % 16)]

/-- Lowercase hex characters of a byte list. -/
def bytesToHex : List Nat → List Char
  | [] => []
  | b :: rest => toHexByte b ++ bytesToHex rest

/-- Lowercase hex string of a final hash value — Python's `.hexdigest()`. -/
def hashHex (s : Hash8) : String :=
  String.mk (bytesToHex (hashBytes s))

/-! ## HMAC-SHA256 (mirrors Python's `hmac.new(key, msg, hashlib.sha256)`) -/

/-- HMAC-SHA256 with SHA-256 block size 64: hash an over-long key, zero-pad,
then the standard ipad/opad construction. -/
def hmacSha256 (key msg : List Nat) : Hash8 :=
  let k0 := if 64 < key.length then hashBytes (sha256 key) else key
  let kp := k0 ++ List.replicate (64 - k0.length) 0
  let ipad := kp.map (fun b => b ^^^ 0x36)
  let opad := kp.map (fun b => b ^^^ 0x5C)
  sha256 (opad ++ hashBytes (sha256 (ipad ++ msg)))

/-- `hmac.new(key, msg, hashlib.sha256).hexdigest()`. -/
def hmacSha256Hex (key msg : List Nat) : String :=
  hashHex (hmacSha256 key msg)

/-! ## Canonical JSON encoding

Mirrors Python's `json.dumps(d, sort_keys=True)` with its default settings:
`ensure_ascii=True` escaping, default separators `", "` and `": "` (note the
space after each comma and colon), keys sorted by code point.  The source
only ever serializes dicts whose values are strings, ints, or one flat
string-keyed metadata dict, so values are modelled as that shape. -/

/-- A primitive JSON value as used by the source's payload dicts. -/
inductive JPrim where
  | jstr : String → JPrim
  | jint : Int → JPrim
deriving DecidableEq

/-- A payload value: a primitive or a flat object (the `metadata` dict). -/
inductive JVal where
  | prim : JPrim → JVal
  | obj : List (String × JPrim) → JVal
deriving DecidableEq

/-- Four lowercase hex characters of a 16-bit value. -/
def hex4 (n : Nat) : List Char :=
  [hexDigit (n / 4096 % 16), hexDigit (n / 256 % 16),
   hexDigit (n / 16 % 16), hexDigit (n % 16)]

/-- One character of a JSON string under `ensure_ascii=True`: printable ASCII
other than quote and backslash is literal, the usual short escapes apply, and
everything else becomes `\uXXXX` (a surrogate pair beyond the BMP). -/
def jsonEscapeChar (c : Char) : List Char :=
  let n := c.toNat
  if c = '"' then ['\\', '"']
  else if c = '\\' then ['\\', '\\']
  else if n = 8 then ['\\', 'b']
  else if n = 9 then ['\\', 't']
  else if n = 10 then ['\\', 'n']
  else if n = 12 then ['\\', 'f']
  else if n = 13 then ['\\', 'r']
  else if 0x20 ≤ n && n ≤ 0x7E then [c]
  else if n < 0x10000 then '\\' :: 'u' :: hex4 n
  else
    let m := n - 0x10000
    '\\' :: 'u' :: hex4 (0xD800 + m / 0x400) ++ '\\' :: 'u' :: hex4 (0xDC00 + m % 0x400)

/-- A JSON string literal's characters. -/
def jsonStr (s : String) : List Char :=
  '"' :: (s.data.map jsonEscapeChar).flatten ++ ['"']

/-- Characters of a serialized primitive (ints in decimal, as Python). -/
def serializePrim : JPrim → List Char
  | .jstr s => jsonStr s
  | .jint n => (toString n).data

/-- Code-point lexicographic comparison of character lists — exactly how
Python compares `str` values, hence how `sort_keys=True` orders keys. -/
def charsLt : List Char → List Char → Bool
  | [], [] => false
  | [], _ :: _ => true
  | _ :: _, [] => false
  | a :: as, b :: bs =>
      if a.toNat < b.toNat then true
      else if b.toNat < a.toNat then false
      else charsLt as bs

/-- Python's `<` on strings. -/
def keyLt (a b : String) : Bool := charsLt a.data b.data

/-- Insert one keyed entry into a key-ordered list (stable insertion). -/
def insertPair {α : Type} (p : String × α) : List (String × α) → List (String × α)
  | [] => [p]
  | q :: rest => if keyLt p.1 q.1 then p :: q :: rest else q :: insertPair p rest

/-- Sort entries by key code-point order — `sort_keys=True`. -/
def sortPairs {α : Type} : List (String × α) → List (String × α)
  | [] => []
  | p :: rest => insertPair p (sortPairs rest)

/-- Interleave a separator between serialized entries. -/
def joinSep (sep : List Char) : List (List Char) → List Char
  | [] => []
  | [x] => x
  | x :: xs => x ++ sep ++ joinSep sep xs

/-- Characters of a JSON object: sorted keys, `": "` between key and value,
`", "` between entries. -/
def jsonObj {α : Type} (f : α → List Char) (l : List (String × α)) : List Char :=
  Char.ofNat 123 ::
    joinSep ", ".data ((sortPairs l).map (fun p => jsonStr p.1 ++ ": ".data ++ f p.2)) ++
    [Char.ofNat 125]

/-- Characters of a payload value. -/
def serializeJVal : JVal → List Char
  | .prim p => serializePrim p
  | .obj l => jsonObj serializePrim l

/-- `json.dumps(d, sort_keys=True)` on a payload dict. -/
def jsonDumps (l : List (String × JVal)) : String :=
  String.mk (jsonObj serializeJVal l)

/-! ## The protocol class (`borovkov_protocol.py`) -/

/-- `BorovkovProtocol.VERSION`. -/
def VERSION : String := "1.1.0"

/-- The two exception kinds the embedded operations can raise: `ValueError`
from seed validation and `TypeError` from `hmac.compare_digest` on a
non-ASCII `str` argument. -/
inductive PyErr where
  | invalidSeed
  | typeError
deriving DecidableEq

/-- A validly constructed instance; `_seed_bytes` is derived on demand since
the source sets it to exactly `seed.encode("utf-8")`. -/
structure BorovkovProtocol where
  seed : String
deriving DecidableEq

/-- `BorovkovProtocol.__init__`: `if not seed or len(seed) < 3: raise` —
an empty string already has length below 3, so the test is `len(seed) < 3`
over characters (Python `len` on `str` counts characters, not bytes). -/
def mkProtocol (seed : String) : Except PyErr BorovkovProtocol :=
  if seed.length < 3 then .error .invalidSeed else .ok ⟨seed⟩

namespace BorovkovProtocol

/-- `sign`: hex HMAC-SHA256 of the UTF-8 content keyed by the UTF-8 seed. -/
def sign (p : BorovkovProtocol) (content : String) : String :=
  hmacSha256Hex (utf8Bytes p.seed) (utf8Bytes content)

/-- Whether every character is ASCII. -/
def isAsciiStr (s : String) : Bool :=
  s.data.all (fun c => c.toNat < 128)

/-- `hmac.compare_digest` on two `str` arguments: a timing-safe comparison
whose result is plain equality, except that CPython raises `TypeError` when
either string contains a non-ASCII character. -/
def compare_digest (a b : String) : Except PyErr Bool :=
  if isAsciiStr a && isAsciiStr b then .ok (a == b) else .error .typeError

/-- `verify`: recompute the signature and compare. -/
def verify (p : BorovkovProtocol) (content sigCandidate : String) : Except PyErr Bool :=
  compare_digest (p.sign content) sigCandidate

/-- `identity_hash`: the public identity fingerprint. -/
def identity_hash (p : BorovkovProtocol) : String :=
  p.sign "I exist"

/-- The canonical payload `sign_post` signs. -/
def postPayload (title content : String) : String :=
  jsonDumps [("title", .prim (.jstr title)), ("content", .prim (.jstr content))]

/-- The record emitted by `sign_post`. -/
structure PostAttestation where
  identity : String
  signature : String
  timestamp : Nat
  protocol_version : String
deriving DecidableEq

/-- `sign_post`; `t` models the single `int(time.time())` read. -/
def sign_post (p : BorovkovProtocol) (title content : String) (t : Nat) : PostAttestation :=
  { identity := p.identity_hash, signature := p.sign (postPayload title content),
    timestamp := t, protocol_version := VERSION }

/-- The canonical payload `sign_action` signs. -/
def actionPayload (action target : String) (md : List (String × JPrim)) (t : Nat) : String :=
  jsonDumps [("action", .prim (.jstr action)), ("target", .prim (.jstr target)),
             ("metadata", .obj md), ("timestamp", .prim (.jint (t : Int)))]

/-- The record emitted by `sign_action`. -/
structure ActionAttestation where
  identity : String
  action_signature : String
  timestamp : Nat
  protocol_version : String
deriving DecidableEq

/-- `sign_action`; the source reads `int(time.time())` twice (inside the
payload and for the emitted `timestamp`), so the two reads are separate
parameters.  Python's `metadata or {}` maps both `None` and `{}` to `{}`. -/
def sign_action (p : BorovkovProtocol) (action target : String)
    (metadata : Option (List (String × JPrim))) (tPayload tEmit : Nat) : ActionAttestation :=
  { identity := p.identity_hash,
    action_signature := p.sign (actionPayload action target (metadata.getD []) tPayload),
    timestamp := tEmit, protocol_version := VERSION }

/-- The payload `sign_rotation` signs: note it includes `rotated_at`. -/
def rotationPayload (oldId newId : String) (t : Nat) : String :=
  jsonDumps [("old_identity", .prim (.jstr oldId)), ("new_identity", .prim (.jstr newId)),
             ("rotated_at", .prim (.jint (t : Int)))]

/-- The record emitted by the rotation operations. -/
structure RotationAnnouncement where
  old_identity : String
  new_identity : String
  rotation_signature : String
  rotated_at : Nat
  protocol_version : String
deriving DecidableEq

/-- `sign_rotation`: constructs `BorovkovProtocol(new_seed)` first (which can
raise), then signs the three-field payload.  The source reads
`int(time.time())` twice — once in the payload, once for `rotated_at`. -/
def sign_rotation (p : BorovkovProtocol) (new_seed : String) (tPayload tEmit : Nat) :
    Except PyErr RotationAnnouncement :=
  match mkProtocol new_seed with
  | .error e => .error e
  | .ok new_bp =>
    .ok { old_identity := p.identity_hash, new_identity := new_bp.identity_hash,
          rotation_signature :=
            p.sign (rotationPayload p.identity_hash new_bp.identity_hash tPayload),
          rotated_at := tEmit, protocol_version := VERSION }

/-- The payload `verify_rotation_announcement` reconstructs: only the two
identity fields, without `rotated_at`. -/
def rotationVerifyPayload (oldId newId : String) : String :=
  jsonDumps [("old_identity", .prim (.jstr oldId)), ("new_identity", .prim (.jstr newId))]

/-- `verify_rotation_announcement` (a `@staticmethod`). -/
def verify_rotation_announcement (old_identity new_identity rotation_sig old_seed : String) :
    Except PyErr Bool :=
  match mkProtocol old_seed with
  | .error e => .error e
  | .ok old_bp =>
    if old_bp.identity_hash ≠ old_identity then .ok false
    else old_bp.verify (rotationVerifyPayload old_identity new_identity) rotation_sig

/-- The payload `sign_rotation_simple` signs (dict literal order differs from
`rotationVerifyPayload` but `sort_keys=True` makes the bytes independent of
it). -/
def simpleRotationPayload (newId oldId : String) : String :=
  jsonDumps [("new_identity", .prim (.jstr newId)), ("old_identity", .prim (.jstr oldId))]

/-- `sign_rotation_simple`. -/
def sign_rotation_simple (p : BorovkovProtocol) (new_seed : String) (t : Nat) :
    Except PyErr RotationAnnouncement :=
  match mkProtocol new_seed with
  | .error e => .error e
  | .ok new_bp =>
    .ok { old_identity := p.identity_hash, new_identity := new_bp.identity_hash,
          rotation_signature :=
            p.sign (simpleRotationPayload new_bp.identity_hash p.identity_hash),
          rotated_at := t, protocol_version := VERSION }

/-- `verify_rotation_simple` (a `@staticmethod`). -/
def verify_rotation_simple (old_identity new_identity rotation_sig old_seed : String) :
    Except PyErr Bool :=
  match mkProtocol old_seed with
  | .error e => .error e
  | .ok old_bp =>
    if old_bp.identity_hash ≠ old_identity then .ok false
    else old_bp.verify (simpleRotationPayload new_identity old_identity) rotation_sig

/-- `verify_chain` (a `@staticmethod`): attestation dicts are modelled as
association lists of string fields; `s.get("identity")` is the first-match
lookup (dict keys are unique), and a missing key compares unequal to the
expected fingerprint just as Python's `None` does. -/
def verify_chain (signatures : List (List (String × String))) (seed : String) :
    Except PyErr Bool :=
  match mkProtocol seed with
  | .error e => .error e
  | .ok bp =>
    .ok (signatures.all (fun s => s.lookup "identity" == some bp.identity_hash))

/-- The string fields of a post attestation, in emission order. -/
def postFields (r : PostAttestation) : List String :=
  [r.identity, r.signature, r.protocol_version]

/-- The string fields of an action attestation, in emission order. -/
def actionFields (r : ActionAttestation) : List String :=
  [r.identity, r.action_signature, r.protocol_version]

/-- The string fields of a rotation announcement, in emission order. -/
def rotationFields (r : RotationAnnouncement) : List String :=
  [r.old_identity, r.new_identity, r.rotation_signature, r.protocol_version]

end BorovkovProtocol

/-- The sixteen characters signatures are built from. -/
def hexChars : List Char := "0123456789abcdef".data

/-- Whether every character of a string belongs to the hex charset. -/
def isHexStr (s : String) : Bool :=
  s.data.all (fun c => hexChars.contains c)

/-- Equality of `Except` values is decidable when both components' is. -/
instance exceptDecEq {ε α : Type} [DecidableEq ε] [DecidableEq α] :
    DecidableEq (Except ε α) := fun x y =>
  match x, y with
  | .ok a, .ok b =>
      if h : a = b then isTrue (by rw [h]) else isFalse (fun hc => h (Except.ok.inj hc))
  | .error a, .error b =>
      if h : a = b then isTrue (by rw [h]) else isFalse (fun hc => h (Except.error.inj hc))
  | .ok _, .error _ => isFalse (fun hc => Except.noConfusion hc)
  | .error _, .ok _ => isFalse (fun hc => Except.noConfusion hc)

/-! ## Supporting lemmas -/

/-- A valid seed constructs successfully. -/
theorem mkProtocol_ok {s : String} (h : 3 ≤ s.length) : mkProtocol s = .ok ⟨s⟩ := by
  unfold mkProtocol
  rw [if_neg (by omega)]

/-- Every hex digit character is one of the sixteen hex characters. -/
theorem hexDigit_mem_hexChars (n : Nat) : hexDigit n ∈ hexChars := by
  unfold hexDigit
  split <;> simp [hexChars]

/-- Every hex digit character is ASCII. -/
theorem hexDigit_ascii (n : Nat) : (hexDigit n).toNat < 128 := by
  unfold hexDigit
  split <;> decide

/-- Hex rendering of bytes emits only hex charset characters. -/
theorem bytesToHex_mem (l : List Nat) : ∀ c ∈ bytesToHex l, c ∈ hexChars := by
  induction l with
  | nil => simp [bytesToHex]
  | cons b rest ih =>
    intro c hc
    rcases List.mem_append.mp (by simpa [bytesToHex] using hc) with h | h
    · rcases List.mem_cons.mp h with rfl | h'
      · exact hexDigit_mem_hexChars _
      · rcases List.mem_singleton.mp h' with rfl
        exact hexDigit_mem_hexChars _
    · exact ih c h

/-- Hex rendering of bytes doubles the length. -/
theorem bytesToHex_length (l : List Nat) : (bytesToHex l).length = 2 * l.length := by
  induction l with
  | nil => rfl
  | cons b rest ih => simp [bytesToHex, toHexByte, ih]; omega

/-- A digest always renders to 32 bytes. -/
theorem hashBytes_length (s : Hash8) : (hashBytes s).length = 32 := by
  simp [hashBytes, wordBytes]

/-- Signatures are exactly 64 characters long. -/
theorem sign_length (p : BorovkovProtocol) (c : String) : (p.sign c).length = 64 := by
  show (bytesToHex (hashBytes _)).length = 64
  rw [bytesToHex_length, hashBytes_length]

/-- Signatures use only the hex charset. -/
theorem isHexStr_sign (p : BorovkovProtocol) (c : String) : isHexStr (p.sign c) = true := by
  show List.all (bytesToHex _) _ = true
  rw [List.all_eq_true]
  intro c' hc'
  exact List.elem_eq_true_of_mem (bytesToHex_mem _ c' hc')

/-- Every character of the hex charset is ASCII. -/
theorem hexChars_ascii {c : Char} (h : c ∈ hexChars) : c.toNat < 128 := by
  fin_cases h <;> decide

/-- A hex string is ASCII. -/
theorem isHexStr_ascii {s : String} (h : isHexStr s = true) : BorovkovProtocol.isAsciiStr s = true := by
  rw [BorovkovProtocol.isAsciiStr, List.all_eq_true]
  rw [isHexStr, List.all_eq_true] at h
  intro c hc
  have := h c hc
  simpa using hexChars_ascii (List.mem_of_elem_eq_true this)

/-- Signatures are ASCII strings. -/
theorem isAsciiStr_sign (p : BorovkovProtocol) (c : String) :
    BorovkovProtocol.isAsciiStr (p.sign c) = true :=
  isHexStr_ascii (isHexStr_sign p c)

/-- Recomputing and comparing a signature against itself verifies. -/
theorem verify_sign_self (p : BorovkovProtocol) (c : String) :
    p.verify c (p.sign c) = .ok true := by
  simp [BorovkovProtocol.verify, BorovkovProtocol.compare_digest, isAsciiStr_sign]

/-- An ASCII candidate different from the recomputed signature is rejected,
with no exception. -/
theorem verify_ascii_ne (p : BorovkovProtocol) {c cand : String}
    (ha : BorovkovProtocol.isAsciiStr cand = true) (hne : cand ≠ p.sign c) :
    p.verify c cand = .ok false := by
  simp only [BorovkovProtocol.verify, BorovkovProtocol.compare_digest, isAsciiStr_sign, ha,
    Bool.and_self, if_pos]
  simp [beq_eq_false_iff_ne]
  exact fun h => hne h.symm

/-- A string whose length is not 64 can never equal a signature. -/
theorem ne_sign_of_length {s : String} (hl : s.length ≠ 64) (q : BorovkovProtocol) (c : String) :
    s ≠ q.sign c := fun he => hl (he ▸ sign_length q c)

/-- Construction succeeds exactly on seeds of at least three characters. -/
theorem mkProtocol_isOk (s : String) : (mkProtocol s).isOk = decide (3 ≤ s.length) := by
  unfold mkProtocol
  by_cases h : s.length < 3
  · rw [if_pos h]
    have h' : ¬ (3 ≤ s.length) := by omega
    simp [Except.isOk, Except.toBool, h']
  · rw [if_neg h]
    have h' : 3 ≤ s.length := by omega
    simp [Except.isOk, Except.toBool, h']

/-- `sign_rotation` succeeds exactly when the new seed is valid. -/
theorem sign_rotation_isOk (p : BorovkovProtocol) (ns : String) (tp te : Nat) :
    (p.sign_rotation ns tp te).isOk = decide (3 ≤ ns.length) := by
  have hd := mkProtocol_isOk ns
  rcases hm : mkProtocol ns with e | nb <;> rw [hm] at hd
  · unfold BorovkovProtocol.sign_rotation
    rw [hm]
    exact hd
  · unfold BorovkovProtocol.sign_rotation
    rw [hm]
    exact hd

/-- `sign_rotation_simple` succeeds exactly when the new seed is valid. -/
theorem sign_rotation_simple_isOk (p : BorovkovProtocol) (ns : String) (t : Nat) :
    (p.sign_rotation_simple ns t).isOk = decide (3 ≤ ns.length) := by
  have hd := mkProtocol_isOk ns
  rcases hm : mkProtocol ns with e | nb <;> rw [hm] at hd
  · unfold BorovkovProtocol.sign_rotation_simple
    rw [hm]
    exact hd
  · unfold BorovkovProtocol.sign_rotation_simple
    rw [hm]
    exact hd

/-! ## Order facts about the key comparison, and canonical-encoding
determinism -/

/-- The key comparison is asymmetric. -/
theorem charsLt_asymm {a : List Char} : ∀ {b}, charsLt a b = true → charsLt b a = true → False := by
  induction a with
  | nil =>
    intro b h1 h2
    cases b with
    | nil => simp [charsLt] at h1
    | cons y ys => simp [charsLt] at h2
  | cons x xs ih =>
    intro b h1 h2
    cases b with
    | nil => simp [charsLt] at h1
    | cons y ys =>
      simp only [charsLt] at h1 h2
      by_cases hxy : x.toNat < y.toNat
      · rw [if_neg (by omega), if_pos hxy] at h2
        exact Bool.noConfusion h2
      · by_cases hyx : y.toNat < x.toNat
        · rw [if_neg hxy, if_pos hyx] at h1
          exact Bool.noConfusion h1
        · rw [if_neg hxy, if_neg hyx] at h1
          rw [if_neg hyx, if_neg hxy] at h2
          exact ih h1 h2

/-- The key comparison is connected: mutually not-less lists are equal. -/
theorem charsLt_conn {a : List Char} : ∀ {b}, charsLt a b = false → charsLt b a = false → a = b := by
  induction a with
  | nil =>
    intro b h1 _
    cases b with
    | nil => rfl
    | cons y ys => simp [charsLt] at h1
  | cons x xs ih =>
    intro b h1 h2
    cases b with
    | nil => simp [charsLt] at h2
    | cons y ys =>
      simp only [charsLt] at h1 h2
      by_cases hxy : x.toNat < y.toNat
      · rw [if_pos hxy] at h1
        exact Bool.noConfusion h1
      · by_cases hyx : y.toNat < x.toNat
        · rw [if_pos hyx] at h2
          exact Bool.noConfusion h2
        · rw [if_neg hxy, if_neg hyx] at h1
          rw [if_neg hyx, if_neg hxy] at h2
          have hxy' : x.toNat = y.toNat := by omega
          have hxe : x = y := Char.ext (UInt32.ext (by simpa [Char.toNat] using hxy'))
          rw [hxe, ih h1 h2]

/-- The key comparison is transitive. -/
theorem charsLt_trans {a : List Char} :
    ∀ {b c}, charsLt a b = true → charsLt b c = true → charsLt a c = true := by
  induction a with
  | nil =>
    intro b c h1 h2
    cases b with
    | nil => simp [charsLt] at h1
    | cons y ys =>
      cases c with
      | nil => simp [charsLt] at h2
      | cons z zs => simp [charsLt]
  | cons x xs ih =>
    intro b c h1 h2
    cases b with
    | nil => simp [charsLt] at h1
    | cons y ys =>
      cases c with
      | nil => simp [charsLt] at h2
      | cons z zs =>
        simp only [charsLt] at h1 h2 ⊢
        by_cases hxy : x.toNat < y.toNat
        · by_cases hyz : y.toNat < z.toNat
          · rw [if_pos (by omega)]
          · by_cases hzy : z.toNat < y.toNat
            · rw [if_neg hyz, if_pos hzy] at h2
              exact Bool.noConfusion h2
            · rw [if_pos (by omega)]
        · by_cases hyx : y.toNat < x.toNat
          · rw [if_neg hxy, if_pos hyx] at h1
            exact Bool.noConfusion h1
          · by_cases hyz : y.toNat < z.toNat
            · rw [if_pos (by omega)]
            · by_cases hzy : z.toNat < y.toNat
              · rw [if_neg hyz, if_pos hzy] at h2
                exact Bool.noConfusion h2
              · rw [if_neg hxy, if_neg hyx] at h1
                rw [if_neg hyz, if_neg hzy] at h2
                rw [if_neg (by omega), if_neg (by omega)]
                exact ih h1 h2

/-- Entry order used by the sorted output: the later key is not below the
earlier one. -/
def entLe {α : Type} (p q : String × α) : Prop :=
  charsLt q.1.data p.1.data = false

/-- Strict entry order by key. -/
def entLt {α : Type} (p q : String × α) : Prop :=
  charsLt p.1.data q.1.data = true

instance entLt_antisymm {α : Type} : IsAntisymm (String × α) entLt :=
  ⟨fun _ _ h1 h2 => (charsLt_asymm h1 h2).elim⟩

/-- Insertion permutes to consing. -/
theorem perm_insertPair {α : Type} (p : String × α) (l : List (String × α)) :
    (insertPair p l).Perm (p :: l) := by
  induction l with
  | nil => exact List.Perm.refl _
  | cons q rest ih =>
    unfold insertPair
    by_cases h : keyLt p.1 q.1 = true
    · rw [if_pos h]
    · rw [if_neg h]
      exact (ih.cons q).trans (List.Perm.swap p q rest)

/-- Sorting permutes to the input. -/
theorem perm_sortPairs {α : Type} (l : List (String × α)) : (sortPairs l).Perm l := by
  induction l with
  | nil => exact List.Perm.refl _
  | cons p rest ih =>
    exact (perm_insertPair p (sortPairs rest)).trans (ih.cons p)

/-- Insertion preserves orderedness. -/
theorem pairwise_insertPair {α : Type} {p : String × α} {l : List (String × α)}
    (h : l.Pairwise entLe) : (insertPair p l).Pairwise entLe := by
  induction l with
  | nil => simp [insertPair, entLe]
  | cons q rest ih =>
    rcases List.pairwise_cons.mp h with ⟨hq, hrest⟩
    unfold insertPair
    by_cases hlt : keyLt p.1 q.1 = true
    · rw [if_pos hlt]
      refine List.pairwise_cons.mpr ⟨?_, h⟩
      intro x hx
      rcases List.mem_cons.mp hx with rfl | hx'
      · show charsLt x.1.data p.1.data = false
        cases hqp : charsLt x.1.data p.1.data with
        | false => rfl
        | true => exact (charsLt_asymm hlt hqp).elim
      · show charsLt x.1.data p.1.data = false
        cases hxp : charsLt x.1.data p.1.data with
        | false => rfl
        | true =>
          have hxq : charsLt x.1.data q.1.data = true := charsLt_trans hxp hlt
          have := hq x hx'
          rw [entLe] at this
          rw [this] at hxq
          exact Bool.noConfusion hxq
    · rw [if_neg hlt]
      refine List.pairwise_cons.mpr ⟨?_, ih hrest⟩
      intro x hx
      have hx' := (perm_insertPair p rest).mem_iff.mp hx
      rcases List.mem_cons.mp hx' with rfl | hxr
      · show charsLt x.1.data q.1.data = false
        cases hb : charsLt x.1.data q.1.data with
        | false => rfl
        | true => exact (hlt hb).elim
      · exact hq x hxr

/-- The sorted output is ordered. -/
theorem pairwise_sortPairs {α : Type} (l : List (String × α)) :
    (sortPairs l).Pairwise entLe := by
  induction l with
  | nil => simp [sortPairs]
  | cons p rest ih => exact pairwise_insertPair ih

/-- An ordered entry list with no duplicate keys is strictly ordered. -/
theorem pairwise_strict {α : Type} {l : List (String × α)} (h : l.Pairwise entLe)
    (hn : (l.map Prod.fst).Nodup) : l.Pairwise entLt := by
  have hne : l.Pairwise (fun p q => p.1 ≠ q.1) := (List.pairwise_map).mp hn
  refine (h.and hne).imp ?_
  rintro a b ⟨hle, hneq⟩
  show charsLt a.1.data b.1.data = true
  cases hb : charsLt a.1.data b.1.data with
  | true => rfl
  | false =>
    rw [entLe] at hle
    have : a.1.data = b.1.data := charsLt_conn hb hle
    exact (hneq (congrArg String.mk this)).elim

/-! ## Claims -/

/-- C3 (amended): for every valid seed, content, and ASCII candidate string
that differs from the recomputed signature — in particular every malformed
ASCII candidate of wrong length or with characters outside the hex charset —
`verify` returns false and does not raise, making such a candidate
indistinguishable from a wrong signature; only a candidate containing
non-ASCII characters raises (see the counterexample). -/
theorem verify_ascii_malformed_returns_false (s c cand : String) (_hs : 3 ≤ s.length)
    (ha : BorovkovProtocol.isAsciiStr cand = true)
    (hne : cand ≠ BorovkovProtocol.sign ⟨s⟩ c) :
    BorovkovProtocol.verify ⟨s⟩ c cand = .ok false :=
  verify_ascii_ne _ ha hne

/-- C3 witness: the malformed ASCII candidate `"zz"` (wrong length and
outside the hex charset) is rejected with `false`, not an exception. -/
theorem verify_ascii_malformed_returns_false_witness :
    (3 ≤ "abc".length) ∧ BorovkovProtocol.isAsciiStr "zz" = true ∧
      BorovkovProtocol.verify ⟨"abc"⟩ "hello" "zz" = .ok false :=
  ⟨by decide, by decide,
    verify_ascii_malformed_returns_false "abc" "hello" "zz" (by decide) (by decide) (by decide)⟩

/-- C3 counterexample: a candidate containing a non-ASCII character (here
`"ÿ"`, both wrong length and outside the hex charset, hence malformed in the
claim's sense) makes `verify` raise `TypeError` from `hmac.compare_digest`
instead of returning false — the claim's "never throws" fails. -/
theorem verify_nonascii_candidate_raises :
    BorovkovProtocol.verify ⟨"abc"⟩ "hello" "ÿ" = .error .typeError := by
  rfl

/-- C4 counterexample: `sign_rotation` (and `sign_rotation_simple`) invoked
on a validly constructed instance raises the invalid-seed error when handed a
too-short new seed — so the error is not confined to construction time. -/
theorem rotation_raises_invalid_seed_after_construction :
    mkProtocol "abc" = .ok ⟨"abc"⟩ ∧
      BorovkovProtocol.sign_rotation ⟨"abc"⟩ "ab" 0 0 = .error .invalidSeed ∧
      BorovkovProtocol.sign_rotation_simple ⟨"abc"⟩ "ab" 0 = .error .invalidSeed :=
  ⟨rfl, rfl, rfl⟩

/-- C4 (amended): construction fails with the invalid-seed error exactly when
the seed is shorter than 3 characters (length in characters, so a seed of
exactly 3 characters succeeds); operations on a valid instance that
internally construct a new identity — the rotation signers — raise the same
error exactly when their new-seed argument is invalid. -/
theorem seed_validation_boundary (s ns : String) (p : BorovkovProtocol) (tp te ts : Nat) :
    ((mkProtocol s).isOk = decide (3 ≤ s.length)) ∧
      (mkProtocol s = .error .invalidSeed ↔ s.length < 3) ∧
      ((p.sign_rotation ns tp te).isOk = decide (3 ≤ ns.length)) ∧
      ((p.sign_rotation_simple ns ts).isOk = decide (3 ≤ ns.length)) := by
  refine ⟨mkProtocol_isOk s, ?_, sign_rotation_isOk p ns tp te, sign_rotation_simple_isOk p ns ts⟩
  unfold mkProtocol
  by_cases h : s.length < 3
  · rw [if_pos h]
    simp [h]
  · rw [if_neg h]
    simp [h]

/-- C5: verification soundness — for every valid seed and content, the
freshly recomputed signature verifies, and any hex string other than the
signature is rejected with false. -/
theorem verify_soundness (s c cand : String) (_hs : 3 ≤ s.length)
    (hhex : isHexStr cand = true) (hne : cand ≠ BorovkovProtocol.sign ⟨s⟩ c) :
    BorovkovProtocol.verify ⟨s⟩ c (BorovkovProtocol.sign ⟨s⟩ c) = .ok true ∧
      BorovkovProtocol.verify ⟨s⟩ c cand = .ok false :=
  ⟨verify_sign_self _ _, verify_ascii_ne _ (isHexStr_ascii hhex) hne⟩

/-- C5 witness: the all-zero hex string is not the signature of `"hello"`
under seed `"abc"`, and is rejected while the real signature verifies. -/
theorem verify_soundness_witness :
    (3 ≤ "abc".length) ∧
      isHexStr "0000000000000000000000000000000000000000000000000000000000000000" = true ∧
      (BorovkovProtocol.verify ⟨"abc"⟩ "hello"
            (BorovkovProtocol.sign ⟨"abc"⟩ "hello") = .ok true ∧
        BorovkovProtocol.verify ⟨"abc"⟩ "hello"
            "0000000000000000000000000000000000000000000000000000000000000000" = .ok false) :=
  ⟨by decide, by decide,
    verify_soundness "abc" "hello"
      "0000000000000000000000000000000000000000000000000000000000000000"
      (by decide) (by decide) (by decide)⟩

/-- C7: `verify_chain` returns true exactly when every attestation's
`identity` field equals the fingerprint of the given valid seed (vacuously
true on the empty sequence), and its result depends only on the `identity`
fields — two chains with the same identity projections, whatever their other
fields (signatures included), verify identically. -/
theorem verify_chain_common_authorship (entries other : List (List (String × String)))
    (s : String) (hs : 3 ≤ s.length)
    (hsame : entries.map (fun e => e.lookup "identity") =
      other.map (fun e => e.lookup "identity")) :
    (BorovkovProtocol.verify_chain entries s = .ok true ↔
        ∀ e ∈ entries,
          e.lookup "identity" = some (BorovkovProtocol.identity_hash ⟨s⟩)) ∧
      BorovkovProtocol.verify_chain [] s = .ok true ∧
      BorovkovProtocol.verify_chain entries s = BorovkovProtocol.verify_chain other s := by
  have hall : ∀ l : List (List (String × String)),
      (l.all fun e => e.lookup "identity" == some (BorovkovProtocol.identity_hash ⟨s⟩)) =
        ((l.map fun e => e.lookup "identity").all
          fun o => o == some (BorovkovProtocol.identity_hash ⟨s⟩)) := by
    intro l
    induction l with
    | nil => rfl
    | cons e rest ih => simp [ih]
  unfold BorovkovProtocol.verify_chain
  rw [mkProtocol_ok hs]
  refine ⟨?_, ?_, ?_⟩
  · simp [List.all_eq_true]
  · simp
  · show Except.ok _ = Except.ok _
    rw [hall entries, hall other, hsame]

/-- C7 witness: a two-entry chain with matching identity fields verifies the
same as its stripped version with the extra `signature` field removed, and
the biconditional holds at that input. -/
theorem verify_chain_common_authorship_witness :
    (3 ≤ "abc".length) ∧
      ([[("identity", "x")], [("signature", "s"), ("identity", "x")]].map
          (fun e => e.lookup "identity") =
        [[("identity", "x")], [("identity", "x")]].map
          (fun e => e.lookup "identity")) ∧
      BorovkovProtocol.verify_chain
          [[("identity", "x")], [("signature", "s"), ("identity", "x")]] "abc" =
        BorovkovProtocol.verify_chain [[("identity", "x")], [("identity", "x")]] "abc" :=
  ⟨by decide, by decide,
    (verify_chain_common_authorship
      [[("identity", "x")], [("signature", "s"), ("identity", "x")]]
      [[("identity", "x")], [("identity", "x")]] "abc" (by decide) (by decide)).2.2⟩

/-- C8 counterexample: the canonical encoding is key-sorted and deterministic
but not whitespace-free — Python's default separators put a space after each
colon and comma, so the encoded post payload contains space characters that
come from neither field names nor values, and differs from the compact
whitespace-free encoding. -/
theorem canonical_encoding_has_separator_spaces :
    BorovkovProtocol.postPayload "Title" "Content" =
        "\x7b\"content\": \"Content\", \"title\": \"Title\"\x7d" ∧
      (BorovkovProtocol.postPayload "Title" "Content").data.contains (Char.ofNat 32) = true ∧
      "Title".data.contains (Char.ofNat 32) = false ∧
      "Content".data.contains (Char.ofNat 32) = false ∧
      BorovkovProtocol.postPayload "Title" "Content" ≠
        "\x7b\"content\":\"Content\",\"title\":\"Title\"\x7d" :=
  ⟨rfl, by decide, by decide, by decide, by decide⟩

/-- C8 (amended): the canonical payload encoding serializes fields in sorted
key order as deterministic key-sorted JSON with Python's default separators
(a single space after each colon and comma): identical logical input yields
identical bytes regardless of field insertion order. -/
theorem jsonDumps_perm_invariant (l1 l2 : List (String × JVal)) (hperm : l1.Perm l2)
    (hkeys : (l1.map Prod.fst).Nodup) : jsonDumps l1 = jsonDumps l2 := by
  have hsortperm : (sortPairs l1).Perm (sortPairs l2) :=
    (perm_sortPairs l1).trans (hperm.trans (perm_sortPairs l2).symm)
  have hk1 : ((sortPairs l1).map Prod.fst).Nodup :=
    ((perm_sortPairs l1).map Prod.fst).nodup_iff.mpr hkeys
  have hk2 : ((sortPairs l2).map Prod.fst).Nodup :=
    ((hsortperm.map Prod.fst).nodup_iff).mp hk1
  have hs1 := pairwise_strict (pairwise_sortPairs l1) hk1
  have hs2 := pairwise_strict (pairwise_sortPairs l2) hk2
  have he : sortPairs l1 = sortPairs l2 := List.eq_of_perm_of_sorted hsortperm hs1 hs2
  unfold jsonDumps jsonObj
  rw [he]

/-- C8 witness: swapping the insertion order of two distinct keys leaves the
encoded bytes unchanged. -/
theorem jsonDumps_perm_invariant_witness :
    ([("b", JVal.prim (JPrim.jstr "x")), ("a", JVal.prim (JPrim.jint 1))].Perm
        [("a", JVal.prim (JPrim.jint 1)), ("b", JVal.prim (JPrim.jstr "x"))]) ∧
      (([("b", JVal.prim (JPrim.jstr "x")),
          ("a", JVal.prim (JPrim.jint 1))].map Prod.fst).Nodup) ∧
      jsonDumps [("b", JVal.prim (JPrim.jstr "x")), ("a", JVal.prim (JPrim.jint 1))] =
        jsonDumps [("a", JVal.prim (JPrim.jint 1)), ("b", JVal.prim (JPrim.jstr "x"))] :=
  ⟨List.Perm.swap _ _ _, by decide,
    jsonDumps_perm_invariant _ _ (List.Perm.swap _ _ _) (by decide)⟩

/-- C9: no emitted record exposes the seed — every string field of the
records built by `sign_post`, `sign_action`, `sign_rotation`, and
`sign_rotation_simple` is an HMAC digest or the protocol version string (the
remaining fields are timestamps), and a seed that is not 64 characters long
and differs from the version string appears in none of them. -/
theorem seed_never_exposed (p : BorovkovProtocol) (ns title content action target : String)
    (md : Option (List (String × JPrim))) (t1 tp2 te2 tp3 te3 t4 : Nat)
    (_hs : 3 ≤ p.seed.length) (hns : 3 ≤ ns.length)
    (hlen : p.seed.length ≠ 64) (hver : p.seed ≠ VERSION) :
    (BorovkovProtocol.postFields (p.sign_post title content t1) =
        [p.identity_hash, p.sign (BorovkovProtocol.postPayload title content), VERSION] ∧
      p.seed ∉ BorovkovProtocol.postFields (p.sign_post title content t1)) ∧
    (BorovkovProtocol.actionFields (p.sign_action action target md tp2 te2) =
        [p.identity_hash,
          p.sign (BorovkovProtocol.actionPayload action target (md.getD []) tp2), VERSION] ∧
      p.seed ∉ BorovkovProtocol.actionFields (p.sign_action action target md tp2 te2)) ∧
    ((p.sign_rotation ns tp3 te3).map BorovkovProtocol.rotationFields =
        .ok [p.identity_hash, BorovkovProtocol.identity_hash ⟨ns⟩,
          p.sign (BorovkovProtocol.rotationPayload p.identity_hash
            (BorovkovProtocol.identity_hash ⟨ns⟩) tp3), VERSION] ∧
      p.seed ∉ [p.identity_hash, BorovkovProtocol.identity_hash ⟨ns⟩,
          p.sign (BorovkovProtocol.rotationPayload p.identity_hash
            (BorovkovProtocol.identity_hash ⟨ns⟩) tp3), VERSION]) ∧
    ((p.sign_rotation_simple ns t4).map BorovkovProtocol.rotationFields =
        .ok [p.identity_hash, BorovkovProtocol.identity_hash ⟨ns⟩,
          p.sign (BorovkovProtocol.simpleRotationPayload
            (BorovkovProtocol.identity_hash ⟨ns⟩) p.identity_hash), VERSION] ∧
      p.seed ∉ [p.identity_hash, BorovkovProtocol.identity_hash ⟨ns⟩,
          p.sign (BorovkovProtocol.simpleRotationPayload
            (BorovkovProtocol.identity_hash ⟨ns⟩) p.identity_hash), VERSION]) := by
  have h3 : ∀ X : String, p.seed ∉ [p.identity_hash, p.sign X, VERSION] := by
    intro X hmem
    simp only [List.mem_cons] at hmem
    rcases hmem with h | h | h | h
    · exact ne_sign_of_length hlen p "I exist" h
    · exact ne_sign_of_length hlen p X h
    · exact hver h
    · cases h
  have h4 : ∀ X : String,
      p.seed ∉ [p.identity_hash, BorovkovProtocol.identity_hash ⟨ns⟩, p.sign X, VERSION] := by
    intro X hmem
    simp only [List.mem_cons] at hmem
    rcases hmem with h | h | h | h | h
    · exact ne_sign_of_length hlen p "I exist" h
    · exact ne_sign_of_length hlen ⟨ns⟩ "I exist" h
    · exact ne_sign_of_length hlen p X h
    · exact hver h
    · cases h
  refine ⟨⟨rfl, h3 _⟩, ⟨rfl, h3 _⟩, ⟨?_, h4 _⟩, ⟨?_, h4 _⟩⟩
  · unfold BorovkovProtocol.sign_rotation
    rw [mkProtocol_ok hns]
    rfl
  · unfold BorovkovProtocol.sign_rotation_simple
    rw [mkProtocol_ok hns]
    rfl

/-- C9 witness: a three-character seed is not 64 characters long and differs
from the version string, so it appears in no emitted field. -/
theorem seed_never_exposed_witness :
    (3 ≤ ("abc" : String).length) ∧ (("abc" : String).length ≠ 64) ∧ ("abc" ≠ VERSION) ∧
      "abc" ∉ BorovkovProtocol.postFields
        (BorovkovProtocol.sign_post ⟨"abc"⟩ "t" "c" 0) :=
  ⟨by decide, by decide, by decide,
    (seed_never_exposed ⟨"abc"⟩ "abcd" "t" "c" "a" "g" none 0 0 0 0 0 0
      (by decide) (by decide) (by decide) (by decide)).1.2⟩

/-- C10: the simplified rotation round-trips — a fresh
`sign_rotation_simple` announcement passes `verify_rotation_simple` with the
old seed, and fails it with any valid seed whose fingerprint differs from
the announced old identity. -/
theorem simple_rotation_roundtrip (oldSeed newSeed wrongSeed : String) (t : Nat)
    (ho : 3 ≤ oldSeed.length) (hn : 3 ≤ newSeed.length) (hw : 3 ≤ wrongSeed.length)
    (hdiff : BorovkovProtocol.identity_hash ⟨wrongSeed⟩ ≠
      BorovkovProtocol.identity_hash ⟨oldSeed⟩) :
    ((BorovkovProtocol.sign_rotation_simple ⟨oldSeed⟩ newSeed t).bind fun r =>
        BorovkovProtocol.verify_rotation_simple r.old_identity r.new_identity
          r.rotation_signature oldSeed) = .ok true ∧
      ((BorovkovProtocol.sign_rotation_simple ⟨oldSeed⟩ newSeed t).bind fun r =>
        BorovkovProtocol.verify_rotation_simple r.old_identity r.new_identity
          r.rotation_signature wrongSeed) = .ok false := by
  have hsr : BorovkovProtocol.sign_rotation_simple ⟨oldSeed⟩ newSeed t =
      .ok ⟨BorovkovProtocol.identity_hash ⟨oldSeed⟩, BorovkovProtocol.identity_hash ⟨newSeed⟩,
        BorovkovProtocol.sign ⟨oldSeed⟩ (BorovkovProtocol.simpleRotationPayload
          (BorovkovProtocol.identity_hash ⟨newSeed⟩) (BorovkovProtocol.identity_hash ⟨oldSeed⟩)),
        t, VERSION⟩ := by
    unfold BorovkovProtocol.sign_rotation_simple
    rw [mkProtocol_ok hn]
  rw [hsr]
  constructor
  · show BorovkovProtocol.verify_rotation_simple _ _ _ oldSeed = .ok true
    unfold BorovkovProtocol.verify_rotation_simple
    rw [mkProtocol_ok ho]
    show (if BorovkovProtocol.identity_hash ⟨oldSeed⟩ ≠
        BorovkovProtocol.identity_hash ⟨oldSeed⟩ then _ else _) = _
    rw [if_neg (by simp)]
    exact verify_sign_self _ _
  · show BorovkovProtocol.verify_rotation_simple _ _ _ wrongSeed = .ok false
    unfold BorovkovProtocol.verify_rotation_simple
    rw [mkProtocol_ok hw]
    show (if BorovkovProtocol.identity_hash ⟨wrongSeed⟩ ≠
        BorovkovProtocol.identity_hash ⟨oldSeed⟩ then _ else _) = _
    rw [if_pos hdiff]

/-- C10 witness: the concrete seeds `"OldSeed"`, `"NewSeed"`, `"WrongSeed"`
have the required fingerprint disagreement, and the round-trip holds. -/
theorem simple_rotation_roundtrip_witness :
    (3 ≤ ("OldSeed" : String).length) ∧
      ((BorovkovProtocol.sign_rotation_simple ⟨"OldSeed"⟩ "NewSeed" 0).bind fun r =>
          BorovkovProtocol.verify_rotation_simple r.old_identity r.new_identity
            r.rotation_signature "OldSeed") = .ok true ∧
      ((BorovkovProtocol.sign_rotation_simple ⟨"OldSeed"⟩ "NewSeed" 0).bind fun r =>
          BorovkovProtocol.verify_rotation_simple r.old_identity r.new_identity
            r.rotation_signature "WrongSeed") = .ok false :=
  ⟨by decide,
    (simple_rotation_roundtrip "OldSeed" "NewSeed" "WrongSeed" 0
      (by decide) (by decide) (by decide) (by decide)).1,
    (simple_rotation_roundtrip "OldSeed" "NewSeed" "WrongSeed" 0
      (by decide) (by decide) (by decide) (by decide)).2⟩

/-- C1: the rotation round-trip the spec states fails on the code — a fresh
`sign_rotation` announcement is rejected by `verify_rotation_announcement`
with the correct old seed, because signing covers the three-field payload
including `rotated_at` while verification reconstructs only the two identity
fields. -/
theorem rotation_roundtrip_fails_on_fresh_announcement :
    ((BorovkovProtocol.sign_rotation ⟨"OldSeed"⟩ "NewSeed" 0 0).bind fun r =>
        BorovkovProtocol.verify_rotation_announcement r.old_identity r.new_identity
          r.rotation_signature "OldSeed") = .ok false := by
  rfl

/-- C2 counterexample: the `rotation_signature` emitted by `sign_rotation`
differs from the signature of the canonical two-field
`\x7bnew_identity, old_identity\x7d` payload the claim states. -/
theorem sign_rotation_not_two_field_payload :
    ((BorovkovProtocol.sign_rotation ⟨"OldSeed"⟩ "NewSeed" 0 0).map fun r =>
        r.rotation_signature ==
          BorovkovProtocol.sign ⟨"OldSeed"⟩
            (BorovkovProtocol.rotationVerifyPayload
              (BorovkovProtocol.identity_hash ⟨"OldSeed"⟩)
              (BorovkovProtocol.identity_hash ⟨"NewSeed"⟩))) = .ok false := by
  rfl

/-- C2 (amended): for every pair of valid seeds, `sign_rotation` emits the
two fingerprints and signs the canonical encoding of the three-field set
`\x7bnew_identity, old_identity, rotated_at\x7d` (the payload-time clock
reading included) with the old seed. -/
theorem sign_rotation_includes_rotated_at (oldSeed newSeed : String) (tp te : Nat)
    (_ho : 3 ≤ oldSeed.length) (hn : 3 ≤ newSeed.length) :
    BorovkovProtocol.sign_rotation ⟨oldSeed⟩ newSeed tp te =
      .ok ⟨BorovkovProtocol.identity_hash ⟨oldSeed⟩,
        BorovkovProtocol.identity_hash ⟨newSeed⟩,
        BorovkovProtocol.sign ⟨oldSeed⟩
          (BorovkovProtocol.rotationPayload (BorovkovProtocol.identity_hash ⟨oldSeed⟩)
            (BorovkovProtocol.identity_hash ⟨newSeed⟩) tp),
        te, VERSION⟩ := by
  unfold BorovkovProtocol.sign_rotation
  rw [mkProtocol_ok hn]

/-- C2 witness: the amended payload formula instantiated at two concrete
valid seeds and clock readings. -/
theorem sign_rotation_includes_rotated_at_witness :
    (3 ≤ ("abc" : String).length) ∧ (3 ≤ ("abcd" : String).length) ∧
      BorovkovProtocol.sign_rotation ⟨"abc"⟩ "abcd" 5 7 =
        .ok ⟨BorovkovProtocol.identity_hash ⟨"abc"⟩,
          BorovkovProtocol.identity_hash ⟨"abcd"⟩,
          BorovkovProtocol.sign ⟨"abc"⟩
            (BorovkovProtocol.rotationPayload (BorovkovProtocol.identity_hash ⟨"abc"⟩)
              (BorovkovProtocol.identity_hash ⟨"abcd"⟩) 5),
          7, VERSION⟩ :=
  ⟨by decide, by decide,
    sign_rotation_includes_rotated_at "abc" "abcd" 5 7 (by decide) (by decide)⟩

/-- C6: the identity fingerprint is the HMAC-SHA256 of the constant string
`"I exist"` keyed by the UTF-8 seed bytes, rendered as 64 lowercase hex
characters, and the seed `"KirillBorovkov"` yields exactly the golden
vector. -/
theorem known_identity_vector :
    BorovkovProtocol.identity_hash ⟨"KirillBorovkov"⟩ =
        hmacSha256Hex (utf8Bytes "KirillBorovkov") (utf8Bytes "I exist") ∧
      BorovkovProtocol.identity_hash ⟨"KirillBorovkov"⟩ =
        "a9a8ee0a2d1759fdb8adf5cef303edbf9fc1bb2a21270ad187c43ee99ff629dc" ∧
      (BorovkovProtocol.identity_hash ⟨"KirillBorovkov"⟩).length = 64 ∧
      isHexStr (BorovkovProtocol.identity_hash ⟨"KirillBorovkov"⟩) = true := by
  have hv : BorovkovProtocol.identity_hash ⟨"KirillBorovkov"⟩ =
      "a9a8ee0a2d1759fdb8adf5cef303edbf9fc1bb2a21270ad187c43ee99ff629dc" := by
    rfl
  refine ⟨rfl, hv, ?_, ?_⟩
  · rw [hv]
    decide
  · rw [hv]
    decide

end Borovkov
